import Mathlib

/-!
# MCP server registry: shallow embedding and verification

This file embeds the MCP server registry layer of the repository
(`features/mcp-servers/main`, file `part_000`) in Lean 4 and proves the
spec's claims about it.

The registry operations (`getMcpServers`, `addMcpServer`, `updateMcpServer`,
`removeMcpServer`) are translated directly from the TypeScript source.
Collaborators whose code is not part of the source tree — the JSON document
store (`readJsonFile` / `updateJsonFile` from `json-file-utils`), the vault
enumeration (`vault-manager`), the per-window active-vault lookup
(`window-vault-manager`) and the UUID generator — are modelled from the
spec, as environment data or as faithful renditions of the spec's contract,
and are marked as such in their doc comments.

JavaScript objects keyed by strings are modelled as association lists
(`List (String × α)`) with insert-or-overwrite and delete operations
matching JS semantics. JS truthiness of a string `s` (`!s`) is `s = ""`;
truthiness of an optional number (`if (windowId)`) is `some n` with `n ≠ 0`;
the record values stored in the mapping are objects, hence always truthy,
so `!registry.servers[id]` is "no entry at key `id`".
-/

namespace McpRegistry

/-- A vault record: identifier and filesystem path
(the registry treats it as read-only input from the vault manager). -/
structure Vault where
  id : String
  path : String
  deriving Repr, DecidableEq

/-- An MCP server record: an identifier plus server-defined configuration
fields, opaque to the registry layer (collapsed here into one field). -/
structure McpServer where
  id : String
  config : String
  deriving Repr, DecidableEq

/-- The registry document: a single JSON object with one field, `servers`,
a mapping from server identifier to server record. -/
structure Registry where
  servers : List (String × McpServer)
  deriving Repr, DecidableEq

/-- JS object member read: `m[k]` (first binding for the key, `none` when
the key is absent). -/
def objGet : List (String × McpServer) → String → Option McpServer
  | [], _ => none
  | p :: t, k => if p.1 = k then some p.2 else objGet t k

/-- JS object member write `m[k] = v`: overwrite in place when the key is
present, append otherwise. -/
def objSet (m : List (String × McpServer)) (k : String) (v : McpServer) :
    List (String × McpServer) :=
  if m.any (fun p => p.1 = k) then
    m.map (fun p => if p.1 = k then (k, v) else p)
  else
    m ++ [(k, v)]

/-- JS `delete m[k]`. -/
def objDelete (m : List (String × McpServer)) (k : String) :
    List (String × McpServer) :=
  m.filter (fun p => p.1 ≠ k)

/-- State of the file at one path, as far as the schema-validated JSON
store can observe it: absent, present but failing schema validation, or
present and valid. -/
inductive FileState where
  | absent
  | invalid
  | valid (doc : Registry)
  deriving Repr, DecidableEq

/-- Failures that arise inside a registry operation: vault resolution
failure (`No vaults found`), a mutator abort (`Server with ID ... not
found`), or an I/O failure while writing. -/
inductive RegErr where
  | noVaultsFound
  | serverNotFound (id : String)
  | writeFailed
  deriving Repr, DecidableEq

/-- The environment a registry operation runs in: the set of known vaults
(external collaborator `vaultManager.getVaults`), the per-window
active-vault association (external collaborator
`windowVaultManager.getActiveVaultForWindow`), the file system contents,
and which paths fail on write (I/O failure). -/
structure Env where
  vaults : List Vault
  activeVaultForWindow : Nat → List Vault → Option Vault
  files : String → FileState
  writeFails : String → Bool

/-- `getMcpServersRegistryPath`: the vault-scoped registry path
`path.join(vaultPath, ".vault", "mcp-servers-registry.json")`. -/
def getMcpServersRegistryPath (vaultPath : String) : String :=
  vaultPath ++ "/.vault/mcp-servers-registry.json"

/-- `getActiveVault(windowId?)`, translated from the source: throws
`No vaults found` when the vault set is empty; when `windowId` is truthy
(supplied and nonzero — JS `if (windowId)`), consults the per-window
association and returns its result when found; otherwise falls back to the
first known vault. -/
def getActiveVault (env : Env) (windowId : Option Nat) : Except RegErr Vault :=
  match env.vaults with
  | [] => Except.error RegErr.noVaultsFound
  | v0 :: rest =>
    match windowId with
    | some w =>
      if w ≠ 0 then
        match env.activeVaultForWindow w (v0 :: rest) with
        | some v => Except.ok v
        | none => Except.ok v0
      else
        Except.ok v0
    | none => Except.ok v0

/-- Modelled from the spec: `readJsonFile(path, schema, default)` from
`core/utils/json-file-utils` (not in the source tree). Per the spec, it
parses the file at `path`; if the file does not exist or fails schema
validation it returns `default` without raising; otherwise it returns the
validated document; generic I/O and parse failures are treated as an
absent document and not propagated. -/
def readJsonFile (files : String → FileState) (path : String)
    (dflt : Registry) : Registry :=
  match files path with
  | FileState.valid doc => doc
  | FileState.absent => dflt
  | FileState.invalid => dflt

/-- The file-system contents after writing the document `doc` at `path`
(all other paths unchanged). -/
def setFile (files : String → FileState) (path : String) (doc : Registry) :
    String → FileState :=
  fun p => if p = path then FileState.valid doc else files p

/-- The environment after writing the document `doc` at `path`. -/
def envAfterWrite (env : Env) (path : String) (doc : Registry) : Env :=
  { env with files := setFile env.files path doc }

/-- Modelled from the spec: `updateJsonFile(path, mutator, schema, default)`
from `core/utils/json-file-utils` (not in the source tree). Per the spec,
it reads the current document with the same default-on-failure policy,
applies the mutator (which may raise to abort the update — then no write
occurs and the error propagates), and writes the result back to `path`;
a failing write raises an I/O error. Returns the updated environment and
the mutator's result. -/
def updateJsonFile (env : Env) (path : String)
    (mutator : Registry → Except RegErr Registry)
    (dflt : Registry) : Except RegErr (Env × Registry) :=
  match mutator (readJsonFile env.files path dflt) with
  | Except.error e => Except.error e
  | Except.ok doc =>
    if env.writeFails path then
      Except.error RegErr.writeFailed
    else
      Except.ok (envAfterWrite env path doc, doc)

/-- Body of `getMcpServers` before the `try`/`catch` boundary: resolve the
active vault, read the registry at the vault-scoped path with default
`{ servers: {} }`, and return the `servers` mapping. -/
def getMcpServersE (env : Env) (windowId : Option Nat) :
    Except RegErr (List (String × McpServer)) :=
  match getActiveVault env windowId with
  | Except.error e => Except.error e
  | Except.ok activeVault =>
    Except.ok
      (readJsonFile env.files (getMcpServersRegistryPath activeVault.path) ⟨[]⟩).servers

/-- `getMcpServers(windowId?)`: the public read. Any internal failure is
caught, logged, and the empty mapping is returned. -/
def getMcpServers (env : Env) (windowId : Option Nat) :
    List (String × McpServer) :=
  match getMcpServersE env windowId with
  | Except.ok m => m
  | Except.error _ => []

/-- Body of `addMcpServer` before the `try`/`catch` boundary. `uid` is the
value the call to `uuidv4()` would return (the generator is external
code modelled as an oracle input; the spec calls it a fresh random UUID).
If `server.id` is falsy (absent/empty) the generated id is assigned; the
record is then inserted into the mapping keyed by its id via
`updateJsonFile`. -/
def addMcpServerE (env : Env) (uid : String) (server : McpServer)
    (windowId : Option Nat) : Except RegErr Env :=
  match getActiveVault env windowId with
  | Except.error e => Except.error e
  | Except.ok activeVault =>
    match updateJsonFile env (getMcpServersRegistryPath activeVault.path)
        (fun registry =>
          Except.ok { registry with servers := (objSet registry.servers
            (if server.id = "" then { server with id := uid } else server).id
            (if server.id = "" then { server with id := uid } else server)) })
        ⟨[]⟩ with
    | Except.error e => Except.error e
    | Except.ok r => Except.ok r.1

/-- `addMcpServer(server, windowId?)`: the public write. Returns `true` on
success; any internal failure is caught and `false` is returned with the
environment unchanged (the aborted update writes nothing). -/
def addMcpServer (env : Env) (uid : String) (server : McpServer)
    (windowId : Option Nat) : Bool × Env :=
  match addMcpServerE env uid server windowId with
  | Except.ok env2 => (true, env2)
  | Except.error _ => (false, env)

/-- Body of `updateMcpServer` before the `try`/`catch` boundary: forces
`server.id = serverId`, then updates the registry with a mutator that
throws `Server with ID ... not found` when the key is absent and
otherwise overwrites the record at that key. -/
def updateMcpServerE (env : Env) (serverId : String) (server : McpServer)
    (windowId : Option Nat) : Except RegErr Env :=
  match getActiveVault env windowId with
  | Except.error e => Except.error e
  | Except.ok activeVault =>
    match updateJsonFile env (getMcpServersRegistryPath activeVault.path)
        (fun registry =>
          match objGet registry.servers serverId with
          | none => Except.error (RegErr.serverNotFound serverId)
          | some _ =>
            Except.ok { registry with servers :=
              (objSet registry.servers serverId { server with id := serverId }) })
        ⟨[]⟩ with
    | Except.error e => Except.error e
    | Except.ok r => Except.ok r.1

/-- `updateMcpServer(serverId, server, windowId?)`: the public write.
Returns `true` on success; any internal failure is caught and `false` is
returned with the environment unchanged. -/
def updateMcpServer (env : Env) (serverId : String) (server : McpServer)
    (windowId : Option Nat) : Bool × Env :=
  match updateMcpServerE env serverId server windowId with
  | Except.ok env2 => (true, env2)
  | Except.error _ => (false, env)

/-- Body of `removeMcpServer` before the `try`/`catch` boundary: updates
the registry with a mutator that throws `Server with ID ... not found`
when the key is absent and otherwise deletes the key. -/
def removeMcpServerE (env : Env) (serverId : String)
    (windowId : Option Nat) : Except RegErr Env :=
  match getActiveVault env windowId with
  | Except.error e => Except.error e
  | Except.ok activeVault =>
    match updateJsonFile env (getMcpServersRegistryPath activeVault.path)
        (fun registry =>
          match objGet registry.servers serverId with
          | none => Except.error (RegErr.serverNotFound serverId)
          | some _ =>
            Except.ok { registry with servers := (objDelete registry.servers serverId) })
        ⟨[]⟩ with
    | Except.error e => Except.error e
    | Except.ok r => Except.ok r.1

/-- `removeMcpServer(serverId, windowId?)`: the public write. Returns
`true` on success; any internal failure is caught and `false` is returned
with the environment unchanged. -/
def removeMcpServer (env : Env) (serverId : String)
    (windowId : Option Nat) : Bool × Env :=
  match removeMcpServerE env serverId windowId with
  | Except.ok env2 => (true, env2)
  | Except.error _ => (false, env)

/-- One public mutation of the registry, with the inputs of that call:
the uuid the generator would produce (for add), the record, and the
window id. -/
inductive RegOp where
  | addOp (uid : String) (s : McpServer) (w : Option Nat)
  | updateOp (sid : String) (s : McpServer) (w : Option Nat)
  | removeOp (sid : String) (w : Option Nat)

/-- Run one public mutation against the environment and keep the
resulting environment. -/
def applyOp (env : Env) : RegOp → Env
  | RegOp.addOp uid s w => (addMcpServer env uid s w).2
  | RegOp.updateOp sid s w => (updateMcpServer env sid s w).2
  | RegOp.removeOp sid w => (removeMcpServer env sid w).2

/-- Run a sequence of public mutations, left to right. -/
def applyOps (env : Env) : List RegOp → Env
  | [] => env
  | op :: ops => applyOps (applyOp env op) ops

/-- The registry-document invariant: every key of the `servers` mapping
equals the `id` field of its record. -/
def RegistryKeysMatchIds (m : List (String × McpServer)) : Prop :=
  ∀ p ∈ m, p.2.id = p.1

/-- Every schema-valid registry file in the environment satisfies the
key/id invariant. -/
def EnvFilesInv (env : Env) : Prop :=
  ∀ path doc, env.files path = FileState.valid doc → RegistryKeysMatchIds doc.servers

/-! ## Concrete sample data (used by counterexamples and witnesses) -/

/-- A sample vault. -/
def vaultA : Vault := { id := "vault-a", path := "/a" }

/-- A second sample vault. -/
def vaultB : Vault := { id := "vault-b", path := "/b" }

/-- A sample server record with an empty (absent) id. -/
def serverNoId : McpServer := { id := "", config := "cfg" }

/-- A sample server record with a supplied id. -/
def serverS1 : McpServer := { id := "s1", config := "cfg1" }

/-- The record `serverNoId` after the generator assigned it the id `u1`. -/
def serverU1 : McpServer := { id := "u1", config := "cfg" }

/-- Another sample record, used as an update payload. -/
def serverNew : McpServer := { id := "other", config := "cfg2" }

/-- An environment with no vaults at all. -/
def envNoVaults : Env :=
  { vaults := []
    activeVaultForWindow := fun _ _ => none
    files := fun _ => FileState.absent
    writeFails := fun _ => false }

/-- An environment with two vaults in which the per-window association maps
every window to the second vault, with no registry files on disk. -/
def envTwoVaults : Env :=
  { vaults := [vaultA, vaultB]
    activeVaultForWindow := fun _ _ => some vaultB
    files := fun _ => FileState.absent
    writeFails := fun _ => false }

/-- An environment with one vault whose registry file holds one record
`s1`. -/
def envOneServer : Env :=
  { vaults := [vaultA]
    activeVaultForWindow := fun _ _ => none
    files := fun p =>
      if p = getMcpServersRegistryPath vaultA.path then
        FileState.valid { servers := [("s1", serverS1)] }
      else
        FileState.absent
    writeFails := fun _ => false }

/-! ## Lookup lemmas for the JS-object operations -/

/-- Lookup distributes over list append. -/
theorem objGet_append (t u : List (String × McpServer)) (k : String) :
    objGet (t ++ u) k =
      match objGet t k with
      | some v => some v
      | none => objGet u k := by
  induction t with
  | nil => simp [objGet]
  | cons p t ih =>
    by_cases hp : p.1 = k
    · simp [objGet, hp]
    · simp [objGet, hp, ih]

/-- When no binding has key `k`, lookup at `k` misses. -/
theorem objGet_eq_none_of_not_any (m : List (String × McpServer)) (k : String)
    (h : m.any (fun p => p.1 = k) = false) : objGet m k = none := by
  induction m with
  | nil => rfl
  | cons p t ih =>
    simp only [List.any_cons, Bool.or_eq_false_iff] at h
    have hp : ¬ (p.1 = k) := by simpa using h.1
    simp [objGet, hp, ih h.2]

/-- Overwriting every binding at key `k` makes lookup at `k` return the new
value, provided some binding at `k` exists. -/
theorem objGet_map_overwrite_self (m : List (String × McpServer)) (k : String)
    (v : McpServer) (h : m.any (fun p => p.1 = k) = true) :
    objGet (m.map (fun p => if p.1 = k then (k, v) else p)) k = some v := by
  induction m with
  | nil => simp at h
  | cons p t ih =>
    by_cases hp : p.1 = k
    · simp [objGet, hp]
    · simp only [List.any_cons, Bool.or_eq_true_iff] at h
      have ht : t.any (fun p => p.1 = k) = true := by
        rcases h with h1 | h2
        · exact absurd (by simpa using h1) hp
        · exact h2
      simp [objGet, hp, ih ht]

/-- Overwriting bindings at key `k` does not change lookup at another key. -/
theorem objGet_map_overwrite_ne (m : List (String × McpServer)) (k k2 : String)
    (v : McpServer) (h : ¬ (k = k2)) :
    objGet (m.map (fun p => if p.1 = k then (k, v) else p)) k2 = objGet m k2 := by
  induction m with
  | nil => rfl
  | cons p t ih =>
    by_cases hp : p.1 = k
    · simp [objGet, hp, h, ih]
    · simp [objGet, hp, ih]

/-- After `m[k] = v`, lookup at `k` returns `v`. -/
theorem objGet_objSet_self (m : List (String × McpServer)) (k : String) (v : McpServer) :
    objGet (objSet m k v) k = some v := by
  unfold objSet
  by_cases ha : m.any (fun p => p.1 = k) = true
  · simp [ha, objGet_map_overwrite_self m k v ha]
  · have ha2 : m.any (fun p => p.1 = k) = false := Bool.eq_false_iff.mpr ha
    simp only [ha2, Bool.false_eq_true, if_false]
    rw [objGet_append]
    simp [objGet_eq_none_of_not_any m k ha2, objGet]

/-- After `m[k] = v`, lookup at any other key is unchanged. -/
theorem objGet_objSet_ne (m : List (String × McpServer)) (k k2 : String)
    (v : McpServer) (h : ¬ (k = k2)) :
    objGet (objSet m k v) k2 = objGet m k2 := by
  unfold objSet
  by_cases ha : m.any (fun p => p.1 = k) = true
  · simp [ha, objGet_map_overwrite_ne m k k2 v h]
  · have ha2 : m.any (fun p => p.1 = k) = false := Bool.eq_false_iff.mpr ha
    simp only [ha2, Bool.false_eq_true, if_false]
    rw [objGet_append]
    have hu : objGet [(k, v)] k2 = none := by simp [objGet, h]
    cases h2 : objGet m k2 <;> simp [hu]

/-- After `delete m[k]`, lookup at `k` misses. -/
theorem objGet_objDelete_self (m : List (String × McpServer)) (k : String) :
    objGet (objDelete m k) k = none := by
  induction m with
  | nil => rfl
  | cons p t ih =>
    simp only [objDelete] at ih
    show objGet (List.filter _ (p :: t)) k = none
    rw [List.filter_cons]
    by_cases hp : p.1 = k
    · rw [if_neg (by simp [hp])]
      exact ih
    · rw [if_pos (by simp [hp])]
      simpa [objGet, hp] using ih

/-- After `delete m[k]`, lookup at any other key is unchanged. -/
theorem objGet_objDelete_ne (m : List (String × McpServer)) (k k2 : String)
    (h : ¬ (k = k2)) :
    objGet (objDelete m k) k2 = objGet m k2 := by
  induction m with
  | nil => rfl
  | cons p t ih =>
    simp only [objDelete] at ih
    show objGet (List.filter _ (p :: t)) k2 = _
    rw [List.filter_cons]
    by_cases hp : p.1 = k
    · have hp2 : ¬ (p.1 = k2) := fun h2 => h (hp.symm.trans h2)
      rw [if_neg (by simp [hp])]
      rw [show objGet (p :: t) k2 = objGet t k2 from by simp [objGet, hp2]]
      exact ih
    · rw [if_pos (by simp [hp])]
      by_cases hpk2 : p.1 = k2
      · simp [objGet, hpk2]
      · simpa [objGet, hpk2] using ih

/-! ## Characterization lemmas for the registry operations -/


theorem updateJsonFile_mutator_error (env : Env) (path : String)
    (f : Registry → Except RegErr Registry) (dflt : Registry) (e : RegErr)
    (hm : f (readJsonFile env.files path dflt) = Except.error e) :
    updateJsonFile env path f dflt = Except.error e := by
  unfold updateJsonFile
  rw [hm]

theorem updateJsonFile_ok (env : Env) (path : String)
    (f : Registry → Except RegErr Registry) (dflt : Registry) (doc : Registry)
    (hm : f (readJsonFile env.files path dflt) = Except.ok doc)
    (hw : env.writeFails path = false) :
    updateJsonFile env path f dflt = Except.ok (envAfterWrite env path doc, doc) := by
  unfold updateJsonFile
  rw [hm, hw]
  simp

theorem updateJsonFile_write_fails (env : Env) (path : String)
    (f : Registry → Except RegErr Registry) (dflt : Registry) (doc : Registry)
    (hm : f (readJsonFile env.files path dflt) = Except.ok doc)
    (hw : env.writeFails path = true) :
    updateJsonFile env path f dflt = Except.error RegErr.writeFailed := by
  unfold updateJsonFile
  rw [hm, hw]
  simp

theorem getMcpServers_of_error (env : Env) (w : Option Nat) (e : RegErr)
    (h : getMcpServersE env w = Except.error e) : getMcpServers env w = [] := by
  unfold getMcpServers
  rw [h]

theorem getMcpServers_of_ok (env : Env) (w : Option Nat) (v : Vault)
    (hres : getActiveVault env w = Except.ok v) :
    getMcpServers env w =
      (readJsonFile env.files (getMcpServersRegistryPath v.path) ⟨[]⟩).servers := by
  unfold getMcpServers getMcpServersE
  rw [hres]

theorem addMcpServer_of_error (env : Env) (uid : String) (s : McpServer)
    (w : Option Nat) (e : RegErr) (h : addMcpServerE env uid s w = Except.error e) :
    addMcpServer env uid s w = (false, env) := by
  unfold addMcpServer
  rw [h]

theorem updateMcpServer_of_error (env : Env) (sid : String) (s : McpServer)
    (w : Option Nat) (e : RegErr) (h : updateMcpServerE env sid s w = Except.error e) :
    updateMcpServer env sid s w = (false, env) := by
  unfold updateMcpServer
  rw [h]

theorem removeMcpServer_of_error (env : Env) (sid : String)
    (w : Option Nat) (e : RegErr) (h : removeMcpServerE env sid w = Except.error e) :
    removeMcpServer env sid w = (false, env) := by
  unfold removeMcpServer
  rw [h]

theorem addMcpServerE_resolve_error (env : Env) (uid : String) (s : McpServer)
    (w : Option Nat) (e : RegErr) (h : getActiveVault env w = Except.error e) :
    addMcpServerE env uid s w = Except.error e := by
  unfold addMcpServerE
  rw [h]

theorem updateMcpServerE_resolve_error (env : Env) (sid : String) (s : McpServer)
    (w : Option Nat) (e : RegErr) (h : getActiveVault env w = Except.error e) :
    updateMcpServerE env sid s w = Except.error e := by
  unfold updateMcpServerE
  rw [h]

theorem removeMcpServerE_resolve_error (env : Env) (sid : String)
    (w : Option Nat) (e : RegErr) (h : getActiveVault env w = Except.error e) :
    removeMcpServerE env sid w = Except.error e := by
  unfold removeMcpServerE
  rw [h]

theorem addMcpServerE_ok (env : Env) (uid : String) (s : McpServer) (w : Option Nat)
    (v : Vault) (hres : getActiveVault env w = Except.ok v)
    (hw : env.writeFails (getMcpServersRegistryPath v.path) = false) :
    addMcpServerE env uid s w =
      Except.ok (envAfterWrite env (getMcpServersRegistryPath v.path)
        (Registry.mk (objSet
          (readJsonFile env.files (getMcpServersRegistryPath v.path) ⟨[]⟩).servers
          (if s.id = "" then { s with id := uid } else s).id
          (if s.id = "" then { s with id := uid } else s)))) := by
  have h2 := updateJsonFile_ok env (getMcpServersRegistryPath v.path)
    (fun registry => Except.ok { registry with servers := (objSet registry.servers
      (if s.id = "" then { s with id := uid } else s).id
      (if s.id = "" then { s with id := uid } else s)) }) ⟨[]⟩
    (Registry.mk (objSet
      (readJsonFile env.files (getMcpServersRegistryPath v.path) ⟨[]⟩).servers
      (if s.id = "" then { s with id := uid } else s).id
      (if s.id = "" then { s with id := uid } else s))) rfl hw
  unfold addMcpServerE
  rw [hres]
  simp only [h2]



theorem updateMcpServerE_not_found (env : Env) (sid : String) (s : McpServer)
    (w : Option Nat) (v : Vault)
    (hres : getActiveVault env w = Except.ok v)
    (hmiss : objGet
      (readJsonFile env.files (getMcpServersRegistryPath v.path) ⟨[]⟩).servers sid = none) :
    updateMcpServerE env sid s w = Except.error (RegErr.serverNotFound sid) := by
  have h2 := updateJsonFile_mutator_error env (getMcpServersRegistryPath v.path)
    (fun registry =>
      match objGet registry.servers sid with
      | none => Except.error (RegErr.serverNotFound sid)
      | some _ =>
        Except.ok { registry with servers := (objSet registry.servers sid { s with id := sid }) })
    ⟨[]⟩ (RegErr.serverNotFound sid) (by simp [hmiss])
  unfold updateMcpServerE
  rw [hres]
  simp only [h2]

theorem updateMcpServerE_ok (env : Env) (sid : String) (s : McpServer)
    (w : Option Nat) (v : Vault) (old : McpServer)
    (hres : getActiveVault env w = Except.ok v)
    (hhit : objGet
      (readJsonFile env.files (getMcpServersRegistryPath v.path) ⟨[]⟩).servers sid = some old)
    (hw : env.writeFails (getMcpServersRegistryPath v.path) = false) :
    updateMcpServerE env sid s w =
      Except.ok (envAfterWrite env (getMcpServersRegistryPath v.path)
        (Registry.mk (objSet
          (readJsonFile env.files (getMcpServersRegistryPath v.path) ⟨[]⟩).servers
          sid { s with id := sid }))) := by
  have h2 := updateJsonFile_ok env (getMcpServersRegistryPath v.path)
    (fun registry =>
      match objGet registry.servers sid with
      | none => Except.error (RegErr.serverNotFound sid)
      | some _ =>
        Except.ok { registry with servers := (objSet registry.servers sid { s with id := sid }) })
    ⟨[]⟩
    (Registry.mk (objSet
      (readJsonFile env.files (getMcpServersRegistryPath v.path) ⟨[]⟩).servers
      sid { s with id := sid })) (by simp [hhit]) hw
  unfold updateMcpServerE
  rw [hres]
  simp only [h2]

theorem removeMcpServerE_not_found (env : Env) (sid : String)
    (w : Option Nat) (v : Vault)
    (hres : getActiveVault env w = Except.ok v)
    (hmiss : objGet
      (readJsonFile env.files (getMcpServersRegistryPath v.path) ⟨[]⟩).servers sid = none) :
    removeMcpServerE env sid w = Except.error (RegErr.serverNotFound sid) := by
  have h2 := updateJsonFile_mutator_error env (getMcpServersRegistryPath v.path)
    (fun registry =>
      match objGet registry.servers sid with
      | none => Except.error (RegErr.serverNotFound sid)
      | some _ =>
        Except.ok { registry with servers := (objDelete registry.servers sid) })
    ⟨[]⟩ (RegErr.serverNotFound sid) (by simp [hmiss])
  unfold removeMcpServerE
  rw [hres]
  simp only [h2]

theorem removeMcpServerE_ok (env : Env) (sid : String)
    (w : Option Nat) (v : Vault) (old : McpServer)
    (hres : getActiveVault env w = Except.ok v)
    (hhit : objGet
      (readJsonFile env.files (getMcpServersRegistryPath v.path) ⟨[]⟩).servers sid = some old)
    (hw : env.writeFails (getMcpServersRegistryPath v.path) = false) :
    removeMcpServerE env sid w =
      Except.ok (envAfterWrite env (getMcpServersRegistryPath v.path)
        (Registry.mk (objDelete
          (readJsonFile env.files (getMcpServersRegistryPath v.path) ⟨[]⟩).servers sid))) := by
  have h2 := updateJsonFile_ok env (getMcpServersRegistryPath v.path)
    (fun registry =>
      match objGet registry.servers sid with
      | none => Except.error (RegErr.serverNotFound sid)
      | some _ =>
        Except.ok { registry with servers := (objDelete registry.servers sid) })
    ⟨[]⟩
    (Registry.mk (objDelete
      (readJsonFile env.files (getMcpServersRegistryPath v.path) ⟨[]⟩).servers sid))
    (by simp [hhit]) hw
  unfold removeMcpServerE
  rw [hres]
  simp only [h2]



/-! ## Invariant lemmas: keys of the mapping match the id fields -/

/-- Insertion with a matching key/id pair preserves the invariant. -/
theorem keysMatchIds_objSet (m : List (String × McpServer)) (k : String)
    (v : McpServer) (hv : v.id = k) (hm : RegistryKeysMatchIds m) :
    RegistryKeysMatchIds (objSet m k v) := by
  unfold objSet
  by_cases ha : m.any (fun p => p.1 = k) = true
  · simp only [ha, if_true]
    intro p hp
    rw [List.mem_map] at hp
    obtain ⟨q, hq, rfl⟩ := hp
    by_cases hqk : q.1 = k
    · simp [hqk, hv]
    · simpa [hqk] using hm q hq
  · have ha2 : m.any (fun p => p.1 = k) = false := Bool.eq_false_iff.mpr ha
    simp only [ha2, Bool.false_eq_true, if_false]
    intro p hp
    rw [List.mem_append] at hp
    rcases hp with hp | hp
    · exact hm p hp
    · rw [List.mem_singleton] at hp
      subst hp
      exact hv

/-- Deletion preserves the invariant. -/
theorem keysMatchIds_objDelete (m : List (String × McpServer)) (k : String)
    (hm : RegistryKeysMatchIds m) :
    RegistryKeysMatchIds (objDelete m k) := by
  intro p hp
  exact hm p (List.mem_of_mem_filter hp)

/-- A document read with the default-on-failure policy satisfies the
invariant whenever the on-disk files and the default do. -/
theorem keysMatchIds_readJsonFile (env : Env) (path : String) (dflt : Registry)
    (henv : EnvFilesInv env) (hdflt : RegistryKeysMatchIds dflt.servers) :
    RegistryKeysMatchIds (readJsonFile env.files path dflt).servers := by
  unfold readJsonFile
  cases hf : env.files path with
  | valid doc => exact henv path doc hf
  | absent => exact hdflt
  | invalid => exact hdflt

/-- Writing an invariant-satisfying document keeps every file invariant. -/
theorem envFilesInv_envAfterWrite (env : Env) (path : String) (doc : Registry)
    (henv : EnvFilesInv env) (hdoc : RegistryKeysMatchIds doc.servers) :
    EnvFilesInv (envAfterWrite env path doc) := by
  intro pth d hd
  simp only [envAfterWrite, setFile] at hd
  by_cases hp : pth = path
  · rw [if_pos hp] at hd
    injection hd with h1
    subst h1
    exact hdoc
  · rw [if_neg hp] at hd
    exact henv pth d hd

/-- Inversion of a successful `updateJsonFile`: the new environment is the
old one with the mutated document written at `path`, and the mutator
accepted the document that was read. -/
theorem updateJsonFile_ok_inv (env : Env) (path : String)
    (f : Registry → Except RegErr Registry) (dflt : Registry)
    (env2 : Env) (doc : Registry)
    (h : updateJsonFile env path f dflt = Except.ok (env2, doc)) :
    env2 = envAfterWrite env path doc ∧
      f (readJsonFile env.files path dflt) = Except.ok doc := by
  unfold updateJsonFile at h
  split at h
  · cases h
  · rename_i d hm
    split at h
    · cases h
    · injection h with hpair
      have he : envAfterWrite env path d = env2 := congrArg Prod.fst hpair
      have hd : d = doc := congrArg Prod.snd hpair
      subst hd
      exact ⟨he.symm, hm⟩

/-- A successful `updateJsonFile` through an invariant-preserving mutator
keeps every file invariant. -/
theorem envFilesInv_updateJsonFile (env : Env) (path : String)
    (f : Registry → Except RegErr Registry) (dflt : Registry)
    (env2 : Env) (doc : Registry)
    (henv : EnvFilesInv env) (hdflt : RegistryKeysMatchIds dflt.servers)
    (hf : ∀ d, RegistryKeysMatchIds d.servers →
      ∀ d2, f d = Except.ok d2 → RegistryKeysMatchIds d2.servers)
    (h : updateJsonFile env path f dflt = Except.ok (env2, doc)) :
    EnvFilesInv env2 := by
  obtain ⟨he, hm⟩ := updateJsonFile_ok_inv env path f dflt env2 doc h
  subst he
  exact envFilesInv_envAfterWrite env path doc henv
    (hf _ (keysMatchIds_readJsonFile env path dflt henv hdflt) _ hm)



/-- `addMcpServer` keeps every file invariant. -/
theorem envFilesInv_addMcpServer (env : Env) (uid : String) (s : McpServer)
    (w : Option Nat) (henv : EnvFilesInv env) :
    EnvFilesInv (addMcpServer env uid s w).2 := by
  unfold addMcpServer
  cases hE : addMcpServerE env uid s w with
  | error e => exact henv
  | ok env2 =>
    show EnvFilesInv env2
    unfold addMcpServerE at hE
    split at hE
    · cases hE
    · rename_i v hres
      split at hE
      · cases hE
      · rename_i r hu
        injection hE with h1
        rw [← h1]
        exact envFilesInv_updateJsonFile env (getMcpServersRegistryPath v.path) _ ⟨[]⟩
          r.1 r.2 henv (by intro p hp; cases hp)
          (by
            intro d hd d2 h2
            injection h2 with h3
            rw [← h3]
            exact keysMatchIds_objSet d.servers _ _ rfl hd)
          hu

/-- `updateMcpServer` keeps every file invariant. -/
theorem envFilesInv_updateMcpServer (env : Env) (sid : String) (s : McpServer)
    (w : Option Nat) (henv : EnvFilesInv env) :
    EnvFilesInv (updateMcpServer env sid s w).2 := by
  unfold updateMcpServer
  cases hE : updateMcpServerE env sid s w with
  | error e => exact henv
  | ok env2 =>
    show EnvFilesInv env2
    unfold updateMcpServerE at hE
    split at hE
    · cases hE
    · rename_i v hres
      split at hE
      · cases hE
      · rename_i r hu
        injection hE with h1
        rw [← h1]
        refine envFilesInv_updateJsonFile env (getMcpServersRegistryPath v.path) _ ⟨[]⟩
          r.1 r.2 henv (by intro p hp; cases hp) ?_ hu
        intro d hd d2 h2
        cases hg : objGet d.servers sid with
        | none => rw [hg] at h2; cases h2
        | some old =>
          rw [hg] at h2
          injection h2 with h3
          rw [← h3]
          exact keysMatchIds_objSet d.servers sid { s with id := sid } rfl hd

/-- `removeMcpServer` keeps every file invariant. -/
theorem envFilesInv_removeMcpServer (env : Env) (sid : String)
    (w : Option Nat) (henv : EnvFilesInv env) :
    EnvFilesInv (removeMcpServer env sid w).2 := by
  unfold removeMcpServer
  cases hE : removeMcpServerE env sid w with
  | error e => exact henv
  | ok env2 =>
    show EnvFilesInv env2
    unfold removeMcpServerE at hE
    split at hE
    · cases hE
    · rename_i v hres
      split at hE
      · cases hE
      · rename_i r hu
        injection hE with h1
        rw [← h1]
        refine envFilesInv_updateJsonFile env (getMcpServersRegistryPath v.path) _ ⟨[]⟩
          r.1 r.2 henv (by intro p hp; cases hp) ?_ hu
        intro d hd d2 h2
        cases hg : objGet d.servers sid with
        | none => rw [hg] at h2; cases h2
        | some old =>
          rw [hg] at h2
          injection h2 with h3
          rw [← h3]
          exact keysMatchIds_objDelete d.servers sid hd

/-- Any single public mutation keeps every file invariant. -/
theorem envFilesInv_applyOp (env : Env) (op : RegOp) (henv : EnvFilesInv env) :
    EnvFilesInv (applyOp env op) := by
  cases op with
  | addOp uid s w => exact envFilesInv_addMcpServer env uid s w henv
  | updateOp sid s w => exact envFilesInv_updateMcpServer env sid s w henv
  | removeOp sid w => exact envFilesInv_removeMcpServer env sid w henv

/-- Any sequence of public mutations keeps every file invariant. -/
theorem envFilesInv_applyOps (env : Env) (ops : List RegOp) (henv : EnvFilesInv env) :
    EnvFilesInv (applyOps env ops) := by
  induction ops generalizing env with
  | nil => exact henv
  | cons op ops ih => exact ih (applyOp env op) (envFilesInv_applyOp env op henv)


/-! ## The claims -/


/-- C1: every public registry operation catches every internal failure
(vault resolution failure, I/O failure, mutator exception) at its boundary
and returns normally with a safe default: `getMcpServers` returns the
empty mapping, and `addMcpServer`, `updateMcpServer`, `removeMcpServer`
return `false` with the environment unchanged. -/
theorem registry_public_ops_default_on_failure (env : Env) (uid sid : String)
    (s : McpServer) (w : Option Nat) :
    (∀ e, getMcpServersE env w = Except.error e → getMcpServers env w = []) ∧
    (∀ e, addMcpServerE env uid s w = Except.error e →
      addMcpServer env uid s w = (false, env)) ∧
    (∀ e, updateMcpServerE env sid s w = Except.error e →
      updateMcpServer env sid s w = (false, env)) ∧
    (∀ e, removeMcpServerE env sid w = Except.error e →
      removeMcpServer env sid w = (false, env)) :=
  ⟨fun e h => getMcpServers_of_error env w e h,
   fun e h => addMcpServer_of_error env uid s w e h,
   fun e h => updateMcpServer_of_error env sid s w e h,
   fun e h => removeMcpServer_of_error env sid w e h⟩

/-- C1 witness: with no vaults at all, every internal pipeline fails and
each public operation returns its default. -/
theorem registry_public_ops_default_on_failure_witness :
    getMcpServers envNoVaults none = [] ∧
    addMcpServer envNoVaults "u1" serverS1 none = (false, envNoVaults) ∧
    updateMcpServer envNoVaults "s1" serverS1 none = (false, envNoVaults) ∧
    removeMcpServer envNoVaults "s1" none = (false, envNoVaults) :=
  ⟨(registry_public_ops_default_on_failure envNoVaults "u1" "s1" serverS1 none).1
      RegErr.noVaultsFound rfl,
   (registry_public_ops_default_on_failure envNoVaults "u1" "s1" serverS1 none).2.1
      RegErr.noVaultsFound rfl,
   (registry_public_ops_default_on_failure envNoVaults "u1" "s1" serverS1 none).2.2.1
      RegErr.noVaultsFound rfl,
   (registry_public_ops_default_on_failure envNoVaults "u1" "s1" serverS1 none).2.2.2
      RegErr.noVaultsFound rfl⟩

/-- C7: reading the registry file when it is absent or fails schema
validation yields the default document without raising; in particular
`getMcpServers` on a vault whose registry file is absent or malformed
returns the empty mapping. -/
theorem read_default_on_absent_or_invalid (files : String → FileState)
    (path : String) (dflt : Registry) (env : Env) (w : Option Nat) (v : Vault) :
    (files path = FileState.absent ∨ files path = FileState.invalid →
      readJsonFile files path dflt = dflt) ∧
    (getActiveVault env w = Except.ok v →
      (env.files (getMcpServersRegistryPath v.path) = FileState.absent ∨
        env.files (getMcpServersRegistryPath v.path) = FileState.invalid) →
      getMcpServers env w = []) := by
  constructor
  · intro h
    unfold readJsonFile
    rcases h with h | h <;> rw [h]
  · intro hres h
    rw [getMcpServers_of_ok env w v hres]
    unfold readJsonFile
    rcases h with h | h <;> rw [h]

/-- C7 witness: a concrete absent file reads as the empty document, and
`getMcpServers` over a vault with no registry file returns `[]`. -/
theorem read_default_on_absent_or_invalid_witness :
    readJsonFile envNoVaults.files "p" ⟨[]⟩ = ⟨[]⟩ ∧
    getMcpServers envTwoVaults none = [] :=
  ⟨(read_default_on_absent_or_invalid envNoVaults.files "p" ⟨[]⟩ envTwoVaults none vaultA).1
      (Or.inl rfl),
   (read_default_on_absent_or_invalid envNoVaults.files "p" ⟨[]⟩ envTwoVaults none vaultA).2
      rfl (Or.inl rfl)⟩



/-- C8 counterexample: with two vaults and `windowId = 0` supplied, the
per-window association yields `vaultB`, yet resolution returns the first
vault `vaultA` — the association result is not returned, refuting the
claim as stated (the code guards the lookup with JS truthiness, which
treats the supplied `0` as absent). -/
theorem getActiveVault_claim_counterexample :
    envTwoVaults.activeVaultForWindow 0 envTwoVaults.vaults = some vaultB ∧
    getActiveVault envTwoVaults (some 0) = Except.ok vaultA ∧
    vaultA ≠ vaultB :=
  ⟨rfl, rfl, by decide⟩

/-- C8 amended: vault resolution fails with `NoVaultsFound` iff the set
of known vaults is empty; otherwise, when `windowId` is supplied and
nonzero the per-window lookup is consulted and its result returned when
it yields a vault, and in every other case (no `windowId`, `windowId = 0`,
or an empty lookup) the first known vault is returned. -/
theorem getActiveVault_characterization (env : Env) (w : Option Nat) :
    (getActiveVault env w = Except.error RegErr.noVaultsFound ↔ env.vaults = []) ∧
    (∀ v0 rest, env.vaults = v0 :: rest →
      getActiveVault env w =
        Except.ok
          (match w with
           | some n =>
             if n ≠ 0 then (env.activeVaultForWindow n env.vaults).getD v0 else v0
           | none => v0)) := by
  unfold getActiveVault
  cases hv : env.vaults with
  | nil =>
    constructor
    · simp
    · intro v0 rest h
      cases h
  | cons v0 rest =>
    constructor
    · constructor
      · intro h
        cases w with
        | none => cases h
        | some n =>
          by_cases hn : n = 0
          · subst hn
            simp at h
          · simp only [ne_eq, hn, not_false_iff, if_true] at h
            cases hl : env.activeVaultForWindow n (v0 :: rest) with
            | none => rw [hl] at h; cases h
            | some vv => rw [hl] at h; cases h
      · intro h
        cases h
    · intro v02 rest2 h
      injection h with h1 h2
      subst h1
      subst h2
      cases w with
      | none => rfl
      | some n =>
        by_cases hn : n = 0
        · subst hn
          simp
        · simp only [ne_eq, hn, not_false_iff, if_true]
          cases hl : env.activeVaultForWindow n (v0 :: rest) with
          | none => simp
          | some vv => simp

/-- C8 witness: with two vaults, a nonzero window id resolves through the
association to `vaultB`, and with no vaults resolution fails with
`NoVaultsFound`. -/
theorem getActiveVault_characterization_witness :
    getActiveVault envTwoVaults (some 5) = Except.ok vaultB ∧
    getActiveVault envNoVaults none = Except.error RegErr.noVaultsFound := by
  constructor
  · have h := (getActiveVault_characterization envTwoVaults (some 5)).2 vaultA [vaultB] rfl
    simpa [envTwoVaults] using h
  · exact (getActiveVault_characterization envNoVaults none).1.mpr rfl

/-- C9: a call with `windowId = 0` never consults the per-window
association: resolution and all four public operations behave exactly as
if no `windowId` had been supplied, and resolution returns the first
known vault whenever at least one vault exists. -/
theorem window_zero_ignores_association (env : Env) (uid sid : String)
    (s : McpServer) :
    getActiveVault env (some 0) = getActiveVault env none ∧
    getMcpServers env (some 0) = getMcpServers env none ∧
    addMcpServer env uid s (some 0) = addMcpServer env uid s none ∧
    updateMcpServer env sid s (some 0) = updateMcpServer env sid s none ∧
    removeMcpServer env sid (some 0) = removeMcpServer env sid none ∧
    (∀ v0 rest, env.vaults = v0 :: rest →
      getActiveVault env (some 0) = Except.ok v0) := by
  have hga : getActiveVault env (some 0) = getActiveVault env none := by
    unfold getActiveVault
    cases env.vaults with
    | nil => rfl
    | cons v0 rest => simp
  refine ⟨hga, ?_, ?_, ?_, ?_, ?_⟩
  · unfold getMcpServers getMcpServersE
    rw [hga]
  · unfold addMcpServer addMcpServerE
    rw [hga]
  · unfold updateMcpServer updateMcpServerE
    rw [hga]
  · unfold removeMcpServer removeMcpServerE
    rw [hga]
  · intro v0 rest h
    unfold getActiveVault
    rw [h]
    simp

/-- C9 witness: with `windowId = 0` in an environment whose association
maps every window to the second vault, resolution still returns the
first vault and `getMcpServers` agrees with the no-window call. -/
theorem window_zero_ignores_association_witness :
    getActiveVault envTwoVaults (some 0) = Except.ok vaultA ∧
    getMcpServers envTwoVaults (some 0) = getMcpServers envTwoVaults none :=
  ⟨(window_zero_ignores_association envTwoVaults "u" "s" serverS1).2.2.2.2.2
      vaultA [vaultB] rfl,
   (window_zero_ignores_association envTwoVaults "u" "s" serverS1).2.1⟩



/-- C3: when the record has no id (empty string), `addMcpServer` assigns
it the freshly generated UUID `uid`, stores the record (with its id field
set to `uid`) in the mapping under the key `uid` — overwriting any
existing entry at a colliding key, while every other key is unchanged —
and returns `true` on success and `false` on any failure. The generator
itself is an oracle input; its non-emptiness and freshness are its spec. -/
theorem addMcpServer_generated_id_spec (env : Env) (uid : String) (s : McpServer)
    (w : Option Nat) (v : Vault) :
    (s.id = "" → getActiveVault env w = Except.ok v →
      env.writeFails (getMcpServersRegistryPath v.path) = false →
      (addMcpServer env uid s w).1 = true ∧
      ((addMcpServer env uid s w).2).files (getMcpServersRegistryPath v.path) =
        FileState.valid (Registry.mk (objSet
          (readJsonFile env.files (getMcpServersRegistryPath v.path) ⟨[]⟩).servers
          uid { s with id := uid })) ∧
      objGet (objSet
        (readJsonFile env.files (getMcpServersRegistryPath v.path) ⟨[]⟩).servers
        uid { s with id := uid }) uid = some { s with id := uid } ∧
      (∀ k, ¬ (uid = k) →
        objGet (objSet
          (readJsonFile env.files (getMcpServersRegistryPath v.path) ⟨[]⟩).servers
          uid { s with id := uid }) k =
        objGet (readJsonFile env.files (getMcpServersRegistryPath v.path) ⟨[]⟩).servers k)) ∧
    (∀ e, addMcpServerE env uid s w = Except.error e →
      addMcpServer env uid s w = (false, env)) := by
  constructor
  · intro hid hres hw
    have h2 := addMcpServerE_ok env uid s w v hres hw
    rw [hid] at h2
    have hif : (if ("" : String) = "" then { s with id := uid } else s) =
        { s with id := uid } := if_pos rfl
    rw [hif] at h2
    unfold addMcpServer
    rw [h2]
    refine ⟨rfl, ?_, objGet_objSet_self _ _ _, ?_⟩
    · simp [envAfterWrite, setFile]
    · intro k hk
      exact objGet_objSet_ne _ uid k _ hk
  · intro e he
    exact addMcpServer_of_error env uid s w e he

/-- C10: a record whose id field is the empty string is treated as having
no id: the record is stored under the generated UUID (which is nonempty),
and the empty string is never introduced as a key of the mapping — the
lookup at `""` is unchanged, and still misses if it missed before. -/
theorem addMcpServer_empty_id_spec (env : Env) (uid : String) (s : McpServer)
    (w : Option Nat) (v : Vault)
    (hid : s.id = "") (hu : ¬ (uid = ""))
    (hres : getActiveVault env w = Except.ok v)
    (hw : env.writeFails (getMcpServersRegistryPath v.path) = false) :
    ((addMcpServer env uid s w).2).files (getMcpServersRegistryPath v.path) =
      FileState.valid (Registry.mk (objSet
        (readJsonFile env.files (getMcpServersRegistryPath v.path) ⟨[]⟩).servers
        uid { s with id := uid })) ∧
    objGet (objSet
      (readJsonFile env.files (getMcpServersRegistryPath v.path) ⟨[]⟩).servers
      uid { s with id := uid }) "" =
      objGet (readJsonFile env.files (getMcpServersRegistryPath v.path) ⟨[]⟩).servers "" ∧
    (objGet (readJsonFile env.files (getMcpServersRegistryPath v.path) ⟨[]⟩).servers "" = none →
      objGet (objSet
        (readJsonFile env.files (getMcpServersRegistryPath v.path) ⟨[]⟩).servers
        uid { s with id := uid }) "" = none) := by
  have h2 := addMcpServerE_ok env uid s w v hres hw
  rw [hid] at h2
  have hif : (if ("" : String) = "" then { s with id := uid } else s) =
      { s with id := uid } := if_pos rfl
  rw [hif] at h2
  have hfr : objGet (objSet
      (readJsonFile env.files (getMcpServersRegistryPath v.path) ⟨[]⟩).servers
      uid { s with id := uid }) "" =
      objGet (readJsonFile env.files (getMcpServersRegistryPath v.path) ⟨[]⟩).servers "" :=
    objGet_objSet_ne _ uid "" _ hu
  refine ⟨?_, hfr, fun hn => hfr.trans hn⟩
  unfold addMcpServer
  rw [h2]
  simp [envAfterWrite, setFile]

/-- C4: `updateMcpServer` on an id not present in the resolved vault
registry returns `false` and leaves the environment (hence the stored
document) unchanged: it never inserts under an absent id. -/
theorem updateMcpServer_missing_id_spec (env : Env) (sid : String) (s : McpServer)
    (w : Option Nat) (v : Vault)
    (hres : getActiveVault env w = Except.ok v)
    (hmiss : objGet
      (readJsonFile env.files (getMcpServersRegistryPath v.path) ⟨[]⟩).servers sid = none) :
    updateMcpServer env sid s w = (false, env) :=
  updateMcpServer_of_error env sid s w _
    (updateMcpServerE_not_found env sid s w v hres hmiss)

/-- C5: `updateMcpServer` on an id present in the resolved vault registry
replaces the record stored at that key with the supplied record whose id
field is forced to equal the key regardless of `r.id`, and returns
`true`. -/
theorem updateMcpServer_existing_id_spec (env : Env) (sid : String) (s : McpServer)
    (w : Option Nat) (v : Vault) (old : McpServer)
    (hres : getActiveVault env w = Except.ok v)
    (hhit : objGet
      (readJsonFile env.files (getMcpServersRegistryPath v.path) ⟨[]⟩).servers sid = some old)
    (hw : env.writeFails (getMcpServersRegistryPath v.path) = false) :
    (updateMcpServer env sid s w).1 = true ∧
    ((updateMcpServer env sid s w).2).files (getMcpServersRegistryPath v.path) =
      FileState.valid (Registry.mk (objSet
        (readJsonFile env.files (getMcpServersRegistryPath v.path) ⟨[]⟩).servers
        sid { s with id := sid })) ∧
    objGet (objSet
      (readJsonFile env.files (getMcpServersRegistryPath v.path) ⟨[]⟩).servers
      sid { s with id := sid }) sid = some { s with id := sid } := by
  have h2 := updateMcpServerE_ok env sid s w v old hres hhit hw
  unfold updateMcpServer
  rw [h2]
  refine ⟨rfl, ?_, objGet_objSet_self _ _ _⟩
  simp [envAfterWrite, setFile]

/-- C6: `removeMcpServer` on an absent id returns `false` and changes
nothing; on a present id it returns `true` and deletes exactly that key:
lookup at the key misses afterwards and lookup at every other key is
unchanged. -/
theorem removeMcpServer_spec (env : Env) (sid : String) (w : Option Nat) (v : Vault)
    (hres : getActiveVault env w = Except.ok v) :
    (objGet (readJsonFile env.files (getMcpServersRegistryPath v.path) ⟨[]⟩).servers sid = none →
      removeMcpServer env sid w = (false, env)) ∧
    (∀ old,
      objGet (readJsonFile env.files (getMcpServersRegistryPath v.path) ⟨[]⟩).servers sid =
        some old →
      env.writeFails (getMcpServersRegistryPath v.path) = false →
      (removeMcpServer env sid w).1 = true ∧
      ((removeMcpServer env sid w).2).files (getMcpServersRegistryPath v.path) =
        FileState.valid (Registry.mk (objDelete
          (readJsonFile env.files (getMcpServersRegistryPath v.path) ⟨[]⟩).servers sid)) ∧
      objGet (objDelete
        (readJsonFile env.files (getMcpServersRegistryPath v.path) ⟨[]⟩).servers sid) sid =
        none ∧
      (∀ k, ¬ (sid = k) →
        objGet (objDelete
          (readJsonFile env.files (getMcpServersRegistryPath v.path) ⟨[]⟩).servers sid) k =
        objGet (readJsonFile env.files (getMcpServersRegistryPath v.path) ⟨[]⟩).servers k)) := by
  constructor
  · intro hmiss
    exact removeMcpServer_of_error env sid w _
      (removeMcpServerE_not_found env sid w v hres hmiss)
  · intro old hhit hw
    have h2 := removeMcpServerE_ok env sid w v old hres hhit hw
    unfold removeMcpServer
    rw [h2]
    refine ⟨rfl, ?_, objGet_objDelete_self _ _, ?_⟩
    · simp [envAfterWrite, setFile]
    · intro k hk
      exact objGet_objDelete_ne _ sid k hk



/-- C3 witness: adding an id-less record to a concrete one-server vault succeeds and stores it under the generated id. -/
theorem addMcpServer_generated_id_spec_witness :
    (addMcpServer envOneServer "u1" serverNoId none).1 = true ∧
    objGet (objSet
      (readJsonFile envOneServer.files (getMcpServersRegistryPath vaultA.path) ⟨[]⟩).servers
      "u1" { serverNoId with id := "u1" }) "u1" = some { serverNoId with id := "u1" } := by
  have h := (addMcpServer_generated_id_spec envOneServer "u1" serverNoId none vaultA).1 rfl rfl rfl
  exact ⟨h.1, h.2.2.1⟩

/-- C10 witness: after adding an id-less record to a concrete vault, the empty string is not a key of the mapping. -/
theorem addMcpServer_empty_id_spec_witness :
    objGet (objSet
      (readJsonFile envOneServer.files (getMcpServersRegistryPath vaultA.path) ⟨[]⟩).servers
      "u1" { serverNoId with id := "u1" }) "" = none := by
  have h := addMcpServer_empty_id_spec envOneServer "u1" serverNoId none vaultA rfl
    (by decide) rfl rfl
  exact h.2.2 rfl

/-- C4 witness: updating a non-existent id in a concrete one-server vault returns false with the environment unchanged. -/
theorem updateMcpServer_missing_id_spec_witness :
    updateMcpServer envOneServer "zz" serverNew none = (false, envOneServer) :=
  updateMcpServer_missing_id_spec envOneServer "zz" serverNew none vaultA rfl rfl

/-- C5 witness: updating the existing id in a concrete one-server vault returns true and stores the payload with its id forced. -/
theorem updateMcpServer_existing_id_spec_witness :
    (updateMcpServer envOneServer "s1" serverNew none).1 = true ∧
    objGet (objSet
      (readJsonFile envOneServer.files (getMcpServersRegistryPath vaultA.path) ⟨[]⟩).servers
      "s1" { serverNew with id := "s1" }) "s1" = some { serverNew with id := "s1" } := by
  have h := updateMcpServer_existing_id_spec envOneServer "s1" serverNew none vaultA
    serverS1 rfl rfl rfl
  exact ⟨h.1, h.2.2⟩

/-- C6 witness: removing a non-existent id fails; removing the existing id succeeds. -/
theorem removeMcpServer_spec_witness :
    removeMcpServer envOneServer "zz" none = (false, envOneServer) ∧
    (removeMcpServer envOneServer "s1" none).1 = true := by
  have h1 := (removeMcpServer_spec envOneServer "zz" none vaultA rfl).1 rfl
  have h2 := (removeMcpServer_spec envOneServer "s1" none vaultA rfl).2 serverS1 rfl rfl
  exact ⟨h1, h2.1⟩

/-- C2: every registry document reachable from a file system with no
registry files (so every first read sees the default empty document) by
any sequence of `addMcpServer`, `updateMcpServer`, `removeMcpServer`
calls satisfies the invariant that each key of the `servers` mapping
equals the `id` field of its record. -/
theorem reachable_registry_keys_match_ids (vs : List Vault)
    (assoc : Nat → List Vault → Option Vault) (wfail : String → Bool)
    (ops : List RegOp) (path : String) (doc : Registry)
    (h : (applyOps
      { vaults := vs, activeVaultForWindow := assoc,
        files := fun _ => FileState.absent, writeFails := wfail } ops).files path =
      FileState.valid doc) :
    RegistryKeysMatchIds doc.servers := by
  have henv : EnvFilesInv
      { vaults := vs, activeVaultForWindow := assoc,
        files := fun _ => FileState.absent, writeFails := wfail } := by
    intro pth d hd
    cases hd
  exact envFilesInv_applyOps _ ops henv path doc h

/-- C2 witness: one concrete add of an id-less record reaches a document
whose single key equals its record id. -/
theorem reachable_registry_keys_match_ids_witness :
    serverU1.id = "u1" :=
  reachable_registry_keys_match_ids [vaultA] (fun _ _ => none) (fun _ => false)
    [RegOp.addOp "u1" serverNoId none] (getMcpServersRegistryPath vaultA.path)
    (Registry.mk [("u1", serverU1)]) rfl ("u1", serverU1) (by simp)


end McpRegistry
